import Mathlib

/-!
Verification of the OpenScan Micro-Manager device adapter
(openscan-mm-adapter).

This file is a shallow embedding, in Lean 4, of the parts of the adapter
that the specification's claims are about:

* `Waveform.cpp` — the pure waveform generator (`VoltsToDACUnits`,
  `GenerateScaledWaveforms`, `GenerateGalvoWaveform`, `SplineInterpolate`)
  together with the constants `X_UNDERSHOOT` and `X_RETRACE_LEN` from
  `Waveform.h`.
* `OpenScan.cpp` / its older variant (`src/unnamed/part_001`) — the
  camera-facing entry points `StartSequenceAcquisition`,
  `SendSequenceImage`, `InitializeResolution`, `GetImageBuffer` and
  `StoreSnapImage`, modelled as pure state transformers over explicit
  device state, with the Micro-Manager core callback (image sink)
  abstracted as an oracle for its insertion results.
* The Kalman gain schedule of the FPGA acquisition engine.  Its
  implementation (`OpenScan::SetKalmanGain`, `SequenceThread::AcquireFrame`)
  is declared in `OpenScan.h` but its definition is not part of the source
  tree, so it is modelled from the specification (see `kalmanGain` below).

Conventions of the embedding:

* C `double` values are modelled as exact rationals (`ℚ`); decimal literals
  such as `3276.8` denote the exact decimal fraction.  The algebraic
  identities proved below are identities of the real-number algorithm the
  code implements.
* C `round` (round half away from zero) is modelled by `cround`.
* Machine integer widths are immaterial at the call sites covered by the
  claims (all index and size arithmetic stays far below 2^31), so indices
  and sizes are `ℕ`/`ℤ`.
* Fallible C functions returning `0` / `-1` with an out parameter are
  modelled as `Option`-valued functions (`none` = the nonzero error
  return); Micro-Manager status codes are modelled by the inductive
  `MMStatus`, keeping only the distinctions the code tests for.
-/

namespace OpenScanMM

/-- `X_UNDERSHOOT` from `Waveform.h`: number of undershoot samples prepended
to the X scan ramp. -/
def X_UNDERSHOOT : ℕ := 50

/-- `X_RETRACE_LEN` from `Waveform.h`: number of samples of the cubic-spline
retrace segment appended to the X waveform. -/
def X_RETRACE_LEN : ℕ := 438

/-- C `round`: round half away from zero, on exact rationals. -/
def cround (q : ℚ) : ℤ := if 0 ≤ q then ⌊q + 1/2⌋ else -⌊-q + 1/2⌋

/-- `VoltsToDACUnits` from `Waveform.cpp`:
`scaled = round(p / zoom * 3276.8 + 32768.0)`; fails (C return `-1`,
modelled as `none`) if the rounded value lies outside `[0, 65535]`,
otherwise stores the 16-bit code. -/
def VoltsToDACUnits (p zoom : ℚ) : Option ℤ :=
  let scaled : ℤ := cround (p / zoom * 3276.8 + 32768)
  if scaled < 0 ∨ 65535 < scaled then none else some scaled

/-- The out-of-range condition of `VoltsToDACUnits`: the computed DAC code
falls outside `[0, 65535]`. -/
def dacOutOfRange (p zoom : ℚ) : Prop :=
  cround (p / zoom * 3276.8 + 32768) < 0 ∨ 65535 < cround (p / zoom * 3276.8 + 32768)

/-- `SplineInterpolate` from `Waveform.cpp`: computes the four cubic
coefficients from the endpoint values and slopes and samples the cubic at
integer `x = 0 .. n-1`. -/
def SplineInterpolate (n : ℕ) (yFirst yLast slopeFirst slopeLast : ℚ) : List ℚ :=
  let nq : ℚ := n
  let c0 : ℚ := slopeFirst / (nq*nq) + 2/(nq*nq*nq) * yFirst
      + slopeLast / (nq*nq) - 2/(nq*nq*nq) * yLast
  let c1 : ℚ := 3/(nq*nq) * yLast - slopeLast / nq - 2/nq * slopeFirst
      - 3/(nq*nq) * yFirst
  let c2 : ℚ := slopeFirst
  let c3 : ℚ := yFirst
  (List.range n).map fun x : ℕ => c0 * (x:ℚ)*(x:ℚ)*(x:ℚ) + c1 * (x:ℚ)*(x:ℚ) + c2 * (x:ℚ) + c3

/-- `GenerateGalvoWaveform` from `Waveform.cpp`: a linear scan ramp of
`undershootLen + effectiveScanLen` samples starting at
`undershootStart = scanStart - undershootLen * step`, followed (when
`retraceLen > 0`) by the spline retrace from `scanEnd` back to
`undershootStart` with both endpoint slopes equal to the ramp step. -/
def GenerateGalvoWaveform (effectiveScanLen retraceLen undershootLen : ℕ)
    (scanStart scanEnd : ℚ) : List ℚ :=
  let scanAmplitude := scanEnd - scanStart
  let step := scanAmplitude / ((effectiveScanLen : ℚ) - 1)
  let linearLen := undershootLen + effectiveScanLen
  let undershootStart := scanStart - undershootLen * step
  let linear := (List.range linearLen).map fun i : ℕ =>
    undershootStart + scanAmplitude * ((i : ℚ) / ((effectiveScanLen : ℚ) - 1))
  let retrace := if 0 < retraceLen then
      SplineInterpolate retraceLen scanEnd undershootStart step step
    else []
  linear ++ retrace

/-- The per-sample conversion loop of `GenerateScaledWaveforms`: convert each
physical sample through `VoltsToDACUnits`, failing the whole call on the
first out-of-range sample. -/
def mapDAC (zoom : ℚ) : List ℚ → Option (List ℤ)
  | [] => some []
  | p :: ps =>
    match VoltsToDACUnits p zoom with
    | none => none
    | some k =>
      match mapDAC zoom ps with
      | none => none
      | some ks => some (k :: ks)

/-- `GenerateScaledWaveforms` from `Waveform.cpp`: generate the X waveform
(undershoot + ramp + retrace) over `[-0.5 + galvoOffsetX, 0.5 + galvoOffsetX]`
and the Y ramp over `[-0.5 + galvoOffsetY, 0.5 + galvoOffsetY]`, then scale
every sample to DAC units; any out-of-range sample fails the whole call
(C return `-1`, modelled as `none`). -/
def GenerateScaledWaveforms (resolution : ℕ) (zoom galvoOffsetX galvoOffsetY : ℚ) :
    Option (List ℤ × List ℤ) :=
  let xWaveform := GenerateGalvoWaveform resolution X_RETRACE_LEN X_UNDERSHOOT
      (-0.5 + galvoOffsetX) (0.5 + galvoOffsetX)
  let yWaveform := GenerateGalvoWaveform resolution 0 0
      (-0.5 + galvoOffsetY) (0.5 + galvoOffsetY)
  match mapDAC zoom xWaveform with
  | none => none
  | some xs =>
    match mapDAC zoom yWaveform with
    | none => none
    | some ys => some (xs, ys)

/-- The cubic polynomial `c0·x³ + c1·x² + c2·x + c3`. -/
def cubic (c0 c1 c2 c3 x : ℚ) : ℚ := c0 * x^3 + c1 * x^2 + c2 * x + c3

/-- Derivative of `cubic c0 c1 c2 c3`. -/
def cubicDeriv (c0 c1 c2 x : ℚ) : ℚ := 3 * c0 * x^2 + 2 * c1 * x + c2

/-- Coefficient `c[0]` as computed by `SplineInterpolate`. -/
def splineC0 (n : ℕ) (yFirst yLast slopeFirst slopeLast : ℚ) : ℚ :=
  slopeFirst / ((n:ℚ)*n) + 2/((n:ℚ)*n*n) * yFirst
    + slopeLast / ((n:ℚ)*n) - 2/((n:ℚ)*n*n) * yLast

/-- Coefficient `c[1]` as computed by `SplineInterpolate`. -/
def splineC1 (n : ℕ) (yFirst yLast slopeFirst slopeLast : ℚ) : ℚ :=
  3/((n:ℚ)*n) * yLast - slopeLast / (n:ℚ) - 2/(n:ℚ) * slopeFirst
    - 3/((n:ℚ)*n) * yFirst

instance (p zoom : ℚ) : Decidable (dacOutOfRange p zoom) := by
  unfold dacOutOfRange
  infer_instance

/-- The offset-free ("normalized") X waveform: ramp over `±0.5` plus
undershoot and retrace, as generated for zero galvo offset. -/
def xNormWaveform (resolution : ℕ) : List ℚ :=
  GenerateGalvoWaveform resolution X_RETRACE_LEN X_UNDERSHOOT (-0.5) 0.5

/-- The offset-free ("normalized") Y waveform: ramp over `±0.5`. -/
def yNormWaveform (resolution : ℕ) : List ℚ :=
  GenerateGalvoWaveform resolution 0 0 (-0.5) 0.5

/-- The per-axis additive offset term of the specification's DAC formula:
the galvo offset scaled consistently with the voltage domain
(`offset / zoom × fullScaleCounts`). -/
def offsetTerm (offset zoom : ℚ) : ℚ := offset / zoom * 3276.8

/-- The specification's DAC formula, stated in the spec's own shape:
`round(p / zoom × fullScaleCounts + halfScaleCode + offsetTerm)` with
`fullScaleCounts = 3276.8` and `halfScaleCode = 32768`. -/
def specDACCode (p zoom t : ℚ) : ℤ := cround (p / zoom * 3276.8 + 32768 + t)

/-- The retrace segment generated by `GenerateGalvoWaveform` for the X axis:
spline over `X_RETRACE_LEN` samples from `scanEnd = 0.5 + ox` back to
`undershootStart = (-0.5 + ox) - 50 * s`, with both endpoint slopes equal to
the ramp step `s = 1/(resolution - 1)`. -/
def retraceSegment (resolution : ℕ) (ox : ℚ) : List ℚ :=
  SplineInterpolate X_RETRACE_LEN (0.5 + ox)
    ((-0.5 + ox) - 50 * (1 / ((resolution : ℚ) - 1)))
    (1 / ((resolution : ℚ) - 1)) (1 / ((resolution : ℚ) - 1))

/-- The `xScaled` output of `GenerateScaledWaveforms` at `resolution = 2`,
`zoom = 10000`, zero offsets (a configuration proved below to stay within
DAC range). -/
def xScaledRes2 : List ℤ := ((GenerateScaledWaveforms 2 10000 0 0).getD ([], [])).1

/-- The `yScaled` output of `GenerateScaledWaveforms` at `resolution = 2`,
`zoom = 10000`, zero offsets. -/
def yScaledRes2 : List ℤ := ((GenerateScaledWaveforms 2 10000 0 0).getD ([], [])).2

/-! ### Kalman averaging (modelled from the spec)

Modelled from the spec: the bodies of `OpenScan::SetKalmanGain` and
`SequenceThread::AcquireFrame` are declared in `OpenScan.h`
(second variant, the FPGA build) but their implementation file is not part
of the source tree, so the per-frame gain schedule is taken from §4.5 of
the specification: gain `1.0` for the first frame of a kalman group
(resetting the hardware running average to the new raw frame) and the
reciprocal of the number of frames seen so far for each subsequent frame
(`1/(i+2)` for the `i`-th subsequent frame, i.e. `1/(j+1)` for 0-based
group index `j ≥ 1`). -/

/-- Modelled from the spec: per-frame Kalman gain written to the hardware
before the frame with 0-based index `i` of a kalman group. -/
def kalmanGain (i : ℕ) : ℚ := if i = 0 then 1 else 1 / ((i : ℚ) + 1)

/-- The gain sequence written over one kalman group of `K` frames. -/
def kalmanGainSchedule (K : ℕ) : List ℚ := (List.range K).map kalmanGain

/-- Modelled from the spec: one step of the hardware exponential moving
average with gain `g`: `avg ← g·x + (1-g)·avg`. -/
def kalmanBlend (avg x g : ℚ) : ℚ := g * x + (1 - g) * avg

/-- Hardware running average after processing frames `f 0 .. f (m-1)` of a
group under the per-frame gain schedule (the initial value is irrelevant
because the first frame's gain is `1`). -/
def kalmanRunningAverage (f : ℕ → ℚ) : ℕ → ℚ
  | 0 => 0
  | m + 1 => kalmanBlend (kalmanRunningAverage f m) (f m) (kalmanGain m)

/-! ### Micro-Manager-facing camera operations -/

/-- The Micro-Manager status codes distinguished by the adapter code
(`DEVICE_OK`, a generic failure, `DEVICE_CAMERA_BUSY_ACQUIRING`,
`DEVICE_BUFFER_OVERFLOW`); only their distinctness matters here. -/
inductive MMStatus where
  | ok
  | err
  | cameraBusyAcquiring
  | bufferOverflow
  deriving DecidableEq

/-- An `OSc_Acquisition` as far as `StartSequenceAcquisition` configures it. -/
structure SeqAcq where
  numberOfFrames : ℤ
  deriving DecidableEq

/-- The device state touched by `OpenScan::StartSequenceAcquisition`:
`IsCapturing()` (the LSM's running-acquisition flag), the stored
`sequenceAcquisition_` and `sequenceAcquisitionStopOnOverflow_`. -/
structure CameraState where
  isCapturing : Bool
  sequenceAcquisition : Option SeqAcq
  sequenceAcquisitionStopOnOverflow : Bool
  deriving DecidableEq

/-- `OpenScan::StartSequenceAcquisition` from `OpenScan.cpp` (the older
variant in `src/unnamed/part_001` has the same control flow): busy-reject
while capturing; silent success for `count < 1`; otherwise create, arm and
start a new acquisition and record it in the device state. -/
def StartSequenceAcquisition (s : CameraState) (count : ℤ) (stopOnOverflow : Bool) :
    MMStatus × CameraState :=
  if s.isCapturing then (MMStatus.cameraBusyAcquiring, s)
  else if count < 1 then (MMStatus.ok, s)
  else (MMStatus.ok,
    { s with sequenceAcquisition := some { numberOfFrames := count },
             sequenceAcquisitionStopOnOverflow := stopOnOverflow })

/-- `OpenScan::SendSequenceImage` from `OpenScan.cpp`.  The core callback
(image sink) is abstracted as the pair of results its `InsertImage` calls
would return (`insert1` for the first attempt, `insert2` for the retry).
Returns `(value returned to the acquisition, number of InsertImage calls,
whether ClearImageBuffer was called)`. -/
def SendSequenceImage (stopOnOverflow : Bool) (insert1 insert2 : MMStatus) :
    Bool × ℕ × Bool :=
  if stopOnOverflow = false ∧ insert1 = MMStatus.bufferOverflow then
    (insert2 == MMStatus.ok, 2, true)
  else if insert1 ≠ MMStatus.ok then (false, 1, false)
  else (true, 1, false)

/-- `OpenScan::SendSequenceImage` from the older variant
(`src/unnamed/part_001`, lines 756-785): the non-overflow branch is a bare
`else { return false; }`, making the final `return true;` unreachable. -/
def SendSequenceImage_part001 (stopOnOverflow : Bool) (insert1 insert2 : MMStatus) :
    Bool × ℕ × Bool :=
  if stopOnOverflow = false ∧ insert1 = MMStatus.bufferOverflow then
    (insert2 == MMStatus.ok, 2, true)
  else (false, 1, false)

/-! ### Resolution initialization -/

/-- Strict lexicographic order on `(width, height)` pairs, the `std::set`
ordering of `std::pair<size_t, size_t>`. -/
def resLtb (a b : ℕ × ℕ) : Bool :=
  decide (a.1 < b.1) || (decide (a.1 = b.1) && decide (a.2 < b.2))

/-- Ordered no-duplicate insertion (the effect of `std::set::insert`). -/
def setInsert (s : List (ℕ × ℕ)) (r : ℕ × ℕ) : List (ℕ × ℕ) :=
  match s with
  | [] => [r]
  | x :: xs =>
    if resLtb r x then r :: x :: xs
    else if r = x then x :: xs
    else x :: setInsert xs r

/-- Building a `std::set` from the device-reported resolution array. -/
def setOfList (l : List (ℕ × ℕ)) : List (ℕ × ℕ) := l.foldl setInsert []

/-- `std::set_union` of two sorted unique lists (as used on the sorted
`std::set` ranges in `InitializeResolution`). -/
def setUnionSorted (a b : List (ℕ × ℕ)) : List (ℕ × ℕ) := b.foldl setInsert a

/-- `OpenScan::InitializeResolution` from `OpenScan.cpp` (three-device
variant): collect each device's allowed resolutions into sets, combine them
with `std::set_union`, fail with `DEVICE_ERR` if the result is empty, and
otherwise publish the combined list as the Resolution property's allowed
values and set the first (least) entry as the initial resolution on the
clock, scanner and detector devices.  Returns the allowed list and that
initial resolution. -/
def InitializeResolution (clockRes scannerRes detectorRes : List (ℕ × ℕ)) :
    Except Unit (List (ℕ × ℕ) × (ℕ × ℕ)) :=
  let clockResolutions := setOfList clockRes
  let scannerResolutions := setOfList scannerRes
  let detectorResolutions := setOfList detectorRes
  let sdResolutions := setUnionSorted scannerResolutions detectorResolutions
  let resolutions := setUnionSorted sdResolutions clockResolutions
  match resolutions with
  | [] => Except.error ()
  | r0 :: rest => Except.ok (r0 :: rest, r0)

/-- The resolutions compatible across the three required devices (the
intersection the spec — and the code's own comment — call for). -/
def compatibleResolutions (clockRes scannerRes detectorRes : List (ℕ × ℕ)) :
    List (ℕ × ℕ) :=
  (setOfList clockRes).filter fun r =>
    decide (r ∈ scannerRes) && decide (r ∈ detectorRes)

/-! ### Snapped-image store -/

/-- The device state touched by `OpenScan::GetImageBuffer` and
`OpenScan::StoreSnapImage`: the per-channel snapped-image pointers
(`none` = null) and the detector's channel count. -/
structure SnapImageState where
  numberOfChannels : ℕ
  snappedImages : List (Option (List ℕ))
  deriving DecidableEq

/-- `OpenScan::GetImageBuffer(chan)`: null when `chan` is at or beyond the
channel count or the snapped-image store size, otherwise the stored
pointer. -/
def GetImageBuffer (s : SnapImageState) (chan : ℕ) : Option (List ℕ) :=
  if s.numberOfChannels ≤ chan ∨ s.snappedImages.length ≤ chan then none
  else s.snappedImages.getD chan none

/-- `OpenScan::StoreSnapImage`: grow the store with null slots up to
`chan + 1` if needed, free any previous buffer for `chan`, and store the
copied pixels. -/
def StoreSnapImage (s : SnapImageState) (chan : ℕ) (pixels : List ℕ) : SnapImageState :=
  let imgs := if s.snappedImages.length < chan + 1 then
      s.snappedImages ++ List.replicate (chan + 1 - s.snappedImages.length) none
    else s.snappedImages
  { s with snappedImages := imgs.set chan (some pixels) }

/-! ### Generic list lemmas used throughout -/

theorem getD_map_range (f : ℕ → ℚ) {n x : ℕ} (hx : x < n) (d : ℚ) :
    ((List.range n).map f).getD x d = f x := by
  rw [List.getD_eq_getElem?_getD, List.getElem?_map, List.getElem?_range hx]
  rfl

theorem getD_map_of_lt (f : ℚ → ℚ) (l : List ℚ) {x : ℕ} (hx : x < l.length) (d d' : ℚ) :
    (l.map f).getD x d = f (l.getD x d') := by
  rw [List.getD_eq_getElem?_getD, List.getElem?_map,
    List.getD_eq_getElem?_getD, List.getElem?_eq_getElem hx]
  rfl

/-! ### Basic shape lemmas for the waveform generator -/

theorem SplineInterpolate_length (n : ℕ) (yF yL sF sL : ℚ) :
    (SplineInterpolate n yF yL sF sL).length = n := by
  simp [SplineInterpolate]

/-- Each sample produced by `SplineInterpolate` is the value of the cubic with
the coefficients the code computes. -/
theorem SplineInterpolate_getD (n : ℕ) (yF yL sF sL : ℚ) {x : ℕ} (hx : x < n) (d : ℚ) :
    (SplineInterpolate n yF yL sF sL).getD x d =
      cubic (splineC0 n yF yL sF sL) (splineC1 n yF yL sF sL) sF yF x := by
  unfold SplineInterpolate
  rw [getD_map_range _ hx]
  unfold cubic splineC0 splineC1
  ring

theorem GenerateGalvoWaveform_length (L r u : ℕ) (a b : ℚ) :
    (GenerateGalvoWaveform L r u a b).length = u + L + r := by
  unfold GenerateGalvoWaveform
  by_cases hr : 0 < r
  · simp [hr, SplineInterpolate_length]
  · simp [hr]
    omega

/-- A sample of the linear section of `GenerateGalvoWaveform`. -/
theorem GenerateGalvoWaveform_getD_linear (L r u : ℕ) (a b : ℚ) {i : ℕ}
    (hi : i < u + L) (d : ℚ) :
    (GenerateGalvoWaveform L r u a b).getD i d =
      (a - u * ((b - a) / ((L:ℚ) - 1))) + (b - a) * ((i:ℚ) / ((L:ℚ) - 1)) := by
  unfold GenerateGalvoWaveform
  rw [List.getD_append _ _ _ _ (by simpa using hi)]
  rw [getD_map_range _ hi]

/-- A sample of the retrace section of `GenerateGalvoWaveform`. -/
theorem GenerateGalvoWaveform_getD_retrace (L r u : ℕ) (a b : ℚ) (hr : 0 < r) {j : ℕ}
    (d : ℚ) :
    (GenerateGalvoWaveform L r u a b).getD (u + L + j) d =
      (SplineInterpolate r b (a - u * ((b - a) / ((L:ℚ) - 1)))
        ((b - a) / ((L:ℚ) - 1)) ((b - a) / ((L:ℚ) - 1))).getD j d := by
  unfold GenerateGalvoWaveform
  rw [List.getD_append_right _ _ _ _ (by simp)]
  simp [hr]

/-! ### Lemmas about the DAC conversion loop -/

theorem mapDAC_eq_none_of_bad (zoom : ℚ) (l : List ℚ)
    (h : ∃ p ∈ l, VoltsToDACUnits p zoom = none) : mapDAC zoom l = none := by
  induction l with
  | nil => simp at h
  | cons p ps ih =>
    rcases h with ⟨q, hq, hbad⟩
    rcases List.mem_cons.mp hq with rfl | hq'
    · simp [mapDAC, hbad]
    · unfold mapDAC
      rw [ih ⟨q, hq', hbad⟩]
      cases VoltsToDACUnits p zoom <;> rfl

theorem mapDAC_length (zoom : ℚ) {l : List ℚ} {ks : List ℤ}
    (h : mapDAC zoom l = some ks) : ks.length = l.length := by
  induction l generalizing ks with
  | nil => simp [mapDAC] at h; simp [← h]
  | cons p ps ih =>
    unfold mapDAC at h
    cases hv : VoltsToDACUnits p zoom with
    | none => rw [hv] at h; exact absurd h (by simp)
    | some k =>
      rw [hv] at h
      cases hm : mapDAC zoom ps with
      | none => rw [hm] at h; exact absurd h (by simp)
      | some ks' =>
        rw [hm] at h
        simp only [Option.some.injEq] at h
        subst h
        simp [ih hm]

/-- When the conversion loop succeeds, each output code is the image of the
corresponding input sample under `VoltsToDACUnits`. -/
theorem mapDAC_getD (zoom : ℚ) {l : List ℚ} {ks : List ℤ}
    (h : mapDAC zoom l = some ks) {i : ℕ} (hi : i < l.length) (d : ℚ) (di : ℤ) :
    VoltsToDACUnits (l.getD i d) zoom = some (ks.getD i di) := by
  induction l generalizing ks i with
  | nil => simp at hi
  | cons p ps ih =>
    unfold mapDAC at h
    cases hv : VoltsToDACUnits p zoom with
    | none => rw [hv] at h; exact absurd h (by simp)
    | some k =>
      rw [hv] at h
      cases hm : mapDAC zoom ps with
      | none => rw [hm] at h; exact absurd h (by simp)
      | some ks' =>
        rw [hm] at h
        simp only [Option.some.injEq] at h
        subst h
        cases i with
        | zero => simpa using hv
        | succ i' => simpa using ih hm (by simpa using hi)

theorem VoltsToDACUnits_eq_none_iff (p zoom : ℚ) :
    VoltsToDACUnits p zoom = none ↔ dacOutOfRange p zoom := by
  unfold VoltsToDACUnits dacOutOfRange
  by_cases h : cround (p / zoom * 3276.8 + 32768) < 0 ∨
      65535 < cround (p / zoom * 3276.8 + 32768) <;> simp [h]

/-! ### Offset linearity of the waveform generator -/

/-- Shifting both endpoint values of the spline by a constant shifts every
sample by that constant (the offset cancels out of `c[0]` and `c[1]`). -/
theorem SplineInterpolate_shift (n : ℕ) (yF yL sF sL o : ℚ) :
    SplineInterpolate n (yF + o) (yL + o) sF sL =
      (SplineInterpolate n yF yL sF sL).map (· + o) := by
  unfold SplineInterpolate
  rw [List.map_map]
  refine List.map_congr_left fun x _ => ?_
  simp only [Function.comp_apply]
  ring

/-- Shifting both scan endpoints by a constant shifts every generated sample
by that constant. -/
theorem GenerateGalvoWaveform_shift (L r u : ℕ) (a b o : ℚ) :
    GenerateGalvoWaveform L r u (a + o) (b + o) =
      (GenerateGalvoWaveform L r u a b).map (· + o) := by
  simp only [GenerateGalvoWaveform, List.map_append]
  have hamp : b + o - (a + o) = b - a := by ring
  congr 1
  · rw [List.map_map]
    refine List.map_congr_left fun i _ => ?_
    simp only [Function.comp_apply]
    ring
  · by_cases hr : 0 < r
    · simp only [hr, if_true]
      rw [hamp]
      have h2 : a + o - (u : ℚ) * ((b - a) / ((L:ℚ) - 1)) =
          (a - (u : ℚ) * ((b - a) / ((L:ℚ) - 1))) + o := by ring
      rw [h2]
      exact SplineInterpolate_shift r b _ _ _ o
    · simp [hr]

/-! ### Claim C1 -/

/-- C1: for every call to `GenerateScaledWaveforms`, if any computed DAC code
of either axis waveform falls outside `[0, 65535]`, the call returns the
out-of-range error (C `-1`, modelled as `none`) — no clamped or wrapped
output is produced. -/
theorem claim_C1_out_of_range_error (resolution : ℕ) (zoom galvoOffsetX galvoOffsetY : ℚ)
    (h : ∃ p ∈ GenerateGalvoWaveform resolution X_RETRACE_LEN X_UNDERSHOOT
            (-0.5 + galvoOffsetX) (0.5 + galvoOffsetX) ++
          GenerateGalvoWaveform resolution 0 0 (-0.5 + galvoOffsetY) (0.5 + galvoOffsetY),
        dacOutOfRange p zoom) :
    GenerateScaledWaveforms resolution zoom galvoOffsetX galvoOffsetY = none := by
  rcases h with ⟨p, hp, hbad⟩
  have hbad' : VoltsToDACUnits p zoom = none := (VoltsToDACUnits_eq_none_iff p zoom).mpr hbad
  rcases List.mem_append.mp hp with hx | hy
  · have hnx := mapDAC_eq_none_of_bad zoom _ ⟨p, hx, hbad'⟩
    simp only [GenerateScaledWaveforms, hnx]
  · have hny := mapDAC_eq_none_of_bad zoom _ ⟨p, hy, hbad'⟩
    simp only [GenerateScaledWaveforms, hny]
    cases mapDAC zoom (GenerateGalvoWaveform resolution X_RETRACE_LEN X_UNDERSHOOT
      (-0.5 + galvoOffsetX) (0.5 + galvoOffsetX)) <;> rfl

/-- Witness for C1 at the input the claim singles out: `resolution = 2048`,
`zoom = 0.1`, `galvoOffsetX = 10`, `galvoOffsetY = 0`.  The very first X
sample (`undershootStart = 9.5 - 50/2047 = 38793/4094`) already maps to DAC
code `343264 > 65535`, and the whole call fails. -/
theorem claim_C1_witness :
    (∃ p ∈ GenerateGalvoWaveform 2048 X_RETRACE_LEN X_UNDERSHOOT
            (-0.5 + 10) (0.5 + 10) ++
          GenerateGalvoWaveform 2048 0 0 (-0.5 + 0) (0.5 + 0),
        dacOutOfRange p (0.1 : ℚ)) ∧
    GenerateScaledWaveforms 2048 0.1 10 0 = none := by
  have hlen : (0:ℕ) <
      (GenerateGalvoWaveform 2048 X_RETRACE_LEN X_UNDERSHOOT (-0.5 + 10) (0.5 + 10)).length := by
    rw [GenerateGalvoWaveform_length]
    decide
  have hmem : (GenerateGalvoWaveform 2048 X_RETRACE_LEN X_UNDERSHOOT
        (-0.5 + 10) (0.5 + 10)).getD 0 0 ∈
      GenerateGalvoWaveform 2048 X_RETRACE_LEN X_UNDERSHOOT (-0.5 + 10) (0.5 + 10) := by
    rw [List.getD_eq_getElem?_getD, List.getElem?_eq_getElem hlen]
    exact List.getElem_mem hlen
  have hval : (GenerateGalvoWaveform 2048 X_RETRACE_LEN X_UNDERSHOOT
        (-0.5 + 10) (0.5 + 10)).getD 0 0 = 38793/4094 := by
    rw [GenerateGalvoWaveform_getD_linear 2048 X_RETRACE_LEN X_UNDERSHOOT
      (-0.5 + 10) (0.5 + 10) (by decide) 0]
    norm_num [X_UNDERSHOOT]
  rw [hval] at hmem
  have hbad : dacOutOfRange (38793/4094 : ℚ) (0.1 : ℚ) := by
    unfold dacOutOfRange cround
    right
    rw [if_pos (by norm_num)]
    norm_num
  have hex : ∃ p ∈ GenerateGalvoWaveform 2048 X_RETRACE_LEN X_UNDERSHOOT
        (-0.5 + 10) (0.5 + 10) ++
      GenerateGalvoWaveform 2048 0 0 (-0.5 + 0) (0.5 + 0),
      dacOutOfRange p (0.1 : ℚ) :=
    ⟨38793/4094, List.mem_append.mpr (Or.inl hmem), hbad⟩
  exact ⟨hex, claim_C1_out_of_range_error 2048 0.1 10 0 hex⟩

/-! ### Claim C9 -/

/-- C9: the waveform generator is a pure, deterministic function of its four
inputs — two calls with equal input tuples produce identical (bit-exact)
`xScaled`/`yScaled` output sequences. -/
theorem claim_C9_determinism (r1 r2 : ℕ) (z1 z2 ox1 ox2 oy1 oy2 : ℚ)
    (hr : r1 = r2) (hz : z1 = z2) (hx : ox1 = ox2) (hy : oy1 = oy2) :
    GenerateScaledWaveforms r1 z1 ox1 oy1 = GenerateScaledWaveforms r2 z2 ox2 oy2 := by
  subst hr; subst hz; subst hx; subst hy; rfl

/-- Witness for C9 at a concrete input tuple. -/
theorem claim_C9_witness :
    (2048 = 2048 ∧ (1:ℚ) = 1 ∧ (1/4:ℚ) = 1/4 ∧ (0:ℚ) = 0) ∧
    GenerateScaledWaveforms 2048 1 (1/4) 0 = GenerateScaledWaveforms 2048 1 (1/4) 0 :=
  ⟨⟨rfl, rfl, rfl, rfl⟩, claim_C9_determinism 2048 2048 1 1 (1/4) (1/4) 0 0 rfl rfl rfl rfl⟩

/-! ### Claim C7 -/

theorem VoltsToDACUnits_shifted (p o zoom : ℚ) (k : ℤ)
    (h : VoltsToDACUnits (p + o) zoom = some k) :
    k = specDACCode p zoom (offsetTerm o zoom) ∧ 0 ≤ k ∧ k ≤ 65535 := by
  unfold VoltsToDACUnits at h
  by_cases hc : cround ((p + o) / zoom * 3276.8 + 32768) < 0 ∨
      65535 < cround ((p + o) / zoom * 3276.8 + 32768)
  · rw [if_pos hc] at h
    exact absurd h (by simp)
  · rw [if_neg hc] at h
    push_neg at hc
    have hk : k = cround ((p + o) / zoom * 3276.8 + 32768) := by
      simpa using h.symm
    have harg : (p + o) / zoom * 3276.8 + 32768 =
        p / zoom * 3276.8 + 32768 + offsetTerm o zoom := by
      unfold offsetTerm
      rw [add_div]
      ring
    refine ⟨?_, ?_, ?_⟩
    · rw [hk]
      unfold specDACCode
      rw [harg]
    · rw [hk]; omega
    · rw [hk]; omega

/-- Inversion of a successful `GenerateScaledWaveforms` call into its two
per-axis conversion results. -/
theorem GenerateScaledWaveforms_eq_some (resolution : ℕ) (zoom ox oy : ℚ)
    (xs ys : List ℤ)
    (h : GenerateScaledWaveforms resolution zoom ox oy = some (xs, ys)) :
    mapDAC zoom (GenerateGalvoWaveform resolution X_RETRACE_LEN X_UNDERSHOOT
      (-0.5 + ox) (0.5 + ox)) = some xs ∧
    mapDAC zoom (GenerateGalvoWaveform resolution 0 0 (-0.5 + oy) (0.5 + oy)) = some ys := by
  simp only [GenerateScaledWaveforms] at h
  cases hx : mapDAC zoom (GenerateGalvoWaveform resolution X_RETRACE_LEN X_UNDERSHOOT
      (-0.5 + ox) (0.5 + ox)) with
  | none => rw [hx] at h; exact absurd h (by simp)
  | some xs' =>
    rw [hx] at h
    cases hy : mapDAC zoom (GenerateGalvoWaveform resolution 0 0
        (-0.5 + oy) (0.5 + oy)) with
    | none => rw [hy] at h; exact absurd h (by simp)
    | some ys' =>
      rw [hy] at h
      simp only [Option.some.injEq, Prod.mk.injEq] at h
      obtain ⟨h1, h2⟩ := h
      subst h1
      subst h2
      exact ⟨rfl, rfl⟩

/-- C7: every 16-bit DAC code produced by `GenerateScaledWaveforms` equals
`round(p / zoom × 3276.8 + 32768 + offsetTerm)` where `p` is the normalized
(offset-free) physical sample for that axis and
`offsetTerm = offset / zoom × 3276.8` is the per-axis additive term folding
in the galvo offset, the same for every sample of the axis; moreover every
produced code lies in `[0, 65535]`. -/
theorem claim_C7_dac_code_formula (resolution : ℕ) (zoom ox oy : ℚ) (xs ys : List ℤ)
    (h : GenerateScaledWaveforms resolution zoom ox oy = some (xs, ys)) :
    (xs.length = (xNormWaveform resolution).length ∧
     ∀ i, i < xs.length →
       xs.getD i 0 = specDACCode ((xNormWaveform resolution).getD i 0) zoom
         (offsetTerm ox zoom) ∧
       0 ≤ xs.getD i 0 ∧ xs.getD i 0 ≤ 65535) ∧
    (ys.length = (yNormWaveform resolution).length ∧
     ∀ j, j < ys.length →
       ys.getD j 0 = specDACCode ((yNormWaveform resolution).getD j 0) zoom
         (offsetTerm oy zoom) ∧
       0 ≤ ys.getD j 0 ∧ ys.getD j 0 ≤ 65535) := by
  obtain ⟨hx, hy⟩ := GenerateScaledWaveforms_eq_some resolution zoom ox oy xs ys h
  have hxshift : GenerateGalvoWaveform resolution X_RETRACE_LEN X_UNDERSHOOT
      (-0.5 + ox) (0.5 + ox) = (xNormWaveform resolution).map (· + ox) := by
    unfold xNormWaveform
    exact GenerateGalvoWaveform_shift resolution X_RETRACE_LEN X_UNDERSHOOT (-0.5) 0.5 ox
  have hyshift : GenerateGalvoWaveform resolution 0 0 (-0.5 + oy) (0.5 + oy) =
      (yNormWaveform resolution).map (· + oy) := by
    unfold yNormWaveform
    exact GenerateGalvoWaveform_shift resolution 0 0 (-0.5) 0.5 oy
  rw [hxshift] at hx
  rw [hyshift] at hy
  constructor
  · have hlen : xs.length = (xNormWaveform resolution).length := by
      rw [mapDAC_length zoom hx, List.length_map]
    refine ⟨hlen, fun i hi => ?_⟩
    have hi' : i < ((xNormWaveform resolution).map (· + ox)).length := by
      rw [List.length_map]; omega
    have hv := mapDAC_getD zoom hx hi' 0 0
    rw [getD_map_of_lt (· + ox) _ (by rw [List.length_map] at hi'; exact hi') 0 0] at hv
    exact VoltsToDACUnits_shifted _ ox zoom _ hv
  · have hlen : ys.length = (yNormWaveform resolution).length := by
      rw [mapDAC_length zoom hy, List.length_map]
    refine ⟨hlen, fun j hj => ?_⟩
    have hj' : j < ((yNormWaveform resolution).map (· + oy)).length := by
      rw [List.length_map]; omega
    have hv := mapDAC_getD zoom hy hj' 0 0
    rw [getD_map_of_lt (· + oy) _ (by rw [List.length_map] at hj'; exact hj') 0 0] at hv
    exact VoltsToDACUnits_shifted _ oy zoom _ hv

/-! ### A concrete in-range configuration, used to witness C7 -/

/-- Triangle-inequality bound for the cubic on `[0, M]`. -/
theorem cubic_abs_le (c0 c1 c2 c3 x M : ℚ) (hx0 : 0 ≤ x) (hxM : x ≤ M) :
    |cubic c0 c1 c2 c3 x| ≤ |c0| * M^3 + |c1| * M^2 + |c2| * M + |c3| := by
  have h3 : x^3 ≤ M^3 := pow_le_pow_left₀ hx0 hxM 3
  have h2 : x^2 ≤ M^2 := pow_le_pow_left₀ hx0 hxM 2
  have ha : |cubic c0 c1 c2 c3 x| ≤ |c0 * x^3| + |c1 * x^2| + |c2 * x| + |c3| := by
    unfold cubic
    calc |c0 * x^3 + c1 * x^2 + c2 * x + c3|
        ≤ |c0 * x^3 + c1 * x^2 + c2 * x| + |c3| := abs_add _ _
      _ ≤ (|c0 * x^3 + c1 * x^2| + |c2 * x|) + |c3| := by
          linarith [abs_add (c0 * x^3 + c1 * x^2) (c2 * x)]
      _ ≤ ((|c0 * x^3| + |c1 * x^2|) + |c2 * x|) + |c3| := by
          linarith [abs_add (c0 * x^3) (c1 * x^2)]
  have e3 : |c0 * x^3| = |c0| * x^3 := by
    rw [abs_mul, abs_of_nonneg (by positivity : (0:ℚ) ≤ x^3)]
  have e2 : |c1 * x^2| = |c1| * x^2 := by
    rw [abs_mul, abs_of_nonneg (by positivity : (0:ℚ) ≤ x^2)]
  have e1 : |c2 * x| = |c2| * x := by
    rw [abs_mul, abs_of_nonneg hx0]
  have b3 : |c0| * x^3 ≤ |c0| * M^3 := mul_le_mul_of_nonneg_left h3 (abs_nonneg c0)
  have b2 : |c1| * x^2 ≤ |c1| * M^2 := mul_le_mul_of_nonneg_left h2 (abs_nonneg c1)
  have b1 : |c2| * x ≤ |c2| * M := mul_le_mul_of_nonneg_left hxM (abs_nonneg c2)
  rw [e3, e2, e1] at ha
  linarith

/-- Conversion never fails at `zoom = 10000` for samples of magnitude at
most `2884` (the DAC argument stays well inside `[0, 65535]`). -/
theorem VoltsToDACUnits_small (p : ℚ) (hp : |p| ≤ 2884) :
    VoltsToDACUnits p 10000 ≠ none := by
  obtain ⟨hlo, hhi⟩ := abs_le.mp hp
  simp only [VoltsToDACUnits]
  have hq0 : (0:ℚ) ≤ p / 10000 * 3276.8 + 32768 := by linarith
  have hqhi : p / 10000 * 3276.8 + 32768 ≤ 33714 := by linarith
  have hcr : cround (p / 10000 * 3276.8 + 32768) =
      ⌊p / 10000 * 3276.8 + 32768 + 1/2⌋ := by
    unfold cround
    rw [if_pos hq0]
  rw [if_neg]
  · simp
  · rw [hcr]
    push_neg
    constructor
    · apply Int.le_floor.mpr
      push_cast
      linarith
    · have hf : (↑⌊p / 10000 * 3276.8 + 32768 + 1/2⌋ : ℚ) ≤
          p / 10000 * 3276.8 + 32768 + 1/2 := Int.floor_le _
      have hlt : (↑⌊p / 10000 * 3276.8 + 32768 + 1/2⌋ : ℚ) < 65536 := by linarith
      have : ⌊p / 10000 * 3276.8 + 32768 + 1/2⌋ < 65536 := by exact_mod_cast hlt
      omega

/-- The conversion loop succeeds when every sample converts. -/
theorem mapDAC_isSome_of_ok (zoom : ℚ) (l : List ℚ)
    (h : ∀ p ∈ l, VoltsToDACUnits p zoom ≠ none) : ∃ ks, mapDAC zoom l = some ks := by
  induction l with
  | nil => exact ⟨[], rfl⟩
  | cons p ps ih =>
    obtain ⟨k, hk⟩ := Option.ne_none_iff_exists'.mp (h p (List.mem_cons_self p ps))
    obtain ⟨ks, hks⟩ := ih fun q hq => h q (List.mem_cons_of_mem p hq)
    refine ⟨k :: ks, ?_⟩
    unfold mapDAC
    rw [hk, hks]

/-- All samples of the X waveform at `resolution = 2`, zero offset, have
magnitude at most `2884`. -/
theorem xWaveform_res2_bounded :
    ∀ p ∈ GenerateGalvoWaveform 2 X_RETRACE_LEN X_UNDERSHOOT (-0.5 + 0) (0.5 + 0),
      |p| ≤ 2884 := by
  intro p hp
  obtain ⟨i, hi, hpi⟩ := List.mem_iff_getElem.mp hp
  rw [GenerateGalvoWaveform_length] at hi
  have hXU : X_UNDERSHOOT = 50 := rfl
  have hXR : X_RETRACE_LEN = 438 := rfl
  have hpd : p = (GenerateGalvoWaveform 2 X_RETRACE_LEN X_UNDERSHOOT
      (-0.5 + 0) (0.5 + 0)).getD i 0 := by
    rw [List.getD_eq_getElem _ _ (by rw [GenerateGalvoWaveform_length]; omega), hpi]
  by_cases hlin : i < X_UNDERSHOOT + 2
  · rw [hpd, GenerateGalvoWaveform_getD_linear 2 X_RETRACE_LEN X_UNDERSHOOT
      (-0.5 + 0) (0.5 + 0) hlin 0]
    have hiq : (i:ℚ) ≤ 51 := by
      have : i ≤ 51 := by omega
      exact_mod_cast this
    have hiq0 : (0:ℚ) ≤ (i:ℚ) := Nat.cast_nonneg i
    rw [abs_le]
    constructor
    · norm_num [X_UNDERSHOOT]
      linarith
    · norm_num [X_UNDERSHOOT]
      linarith
  · have hj : i = X_UNDERSHOOT + 2 + (i - (X_UNDERSHOOT + 2)) := by omega
    rw [hpd, hj, GenerateGalvoWaveform_getD_retrace 2 X_RETRACE_LEN X_UNDERSHOOT
      (-0.5 + 0) (0.5 + 0) (by omega) 0]
    have hsimp : SplineInterpolate X_RETRACE_LEN (0.5 + 0)
        ((-0.5 + 0) - (X_UNDERSHOOT : ℚ) * ((0.5 + 0 - (-0.5 + 0)) / (((2:ℕ):ℚ) - 1)))
        ((0.5 + 0 - (-0.5 + 0)) / (((2:ℕ):ℚ) - 1))
        ((0.5 + 0 - (-0.5 + 0)) / (((2:ℕ):ℚ) - 1)) =
        SplineInterpolate 438 (1/2) (-101/2) 1 1 := by
      norm_num [X_UNDERSHOOT, X_RETRACE_LEN]
    rw [hsimp]
    have hjlt : i - (X_UNDERSHOOT + 2) < 438 := by omega
    rw [SplineInterpolate_getD 438 (1/2) (-101/2) 1 1 hjlt 0]
    have hc0v : splineC0 438 (1/2) (-101/2) 1 1 = 163/14004612 := by
      unfold splineC0
      norm_num
    have hc1v : splineC1 438 (1/2) (-101/2) 1 1 = -163/21316 := by
      unfold splineC1
      norm_num
    have hb := cubic_abs_le (splineC0 438 (1/2) (-101/2) 1 1)
      (splineC1 438 (1/2) (-101/2) 1 1) 1 (1/2) ((i - (X_UNDERSHOOT + 2) : ℕ) : ℚ) 438
      (Nat.cast_nonneg _) (by exact_mod_cast Nat.le_of_lt_succ (by omega : i - (X_UNDERSHOOT + 2) < 439))
    refine le_trans hb ?_
    rw [hc0v, hc1v]
    rw [abs_of_nonneg (by norm_num : (0:ℚ) ≤ 163/14004612),
      abs_of_nonpos (by norm_num : (-163/21316:ℚ) ≤ 0),
      abs_of_nonneg (by norm_num : (0:ℚ) ≤ (1:ℚ)),
      abs_of_nonneg (by norm_num : (0:ℚ) ≤ (1/2:ℚ))]
    norm_num

/-- All samples of the Y waveform at `resolution = 2`, zero offset, have
magnitude at most `2884`. -/
theorem yWaveform_res2_bounded :
    ∀ p ∈ GenerateGalvoWaveform 2 0 0 (-0.5 + 0) (0.5 + 0), |p| ≤ 2884 := by
  intro p hp
  obtain ⟨i, hi, hpi⟩ := List.mem_iff_getElem.mp hp
  rw [GenerateGalvoWaveform_length] at hi
  have hpd : p = (GenerateGalvoWaveform 2 0 0 (-0.5 + 0) (0.5 + 0)).getD i 0 := by
    rw [List.getD_eq_getElem _ _ (by rw [GenerateGalvoWaveform_length]; omega), hpi]
  rw [hpd, GenerateGalvoWaveform_getD_linear 2 0 0 (-0.5 + 0) (0.5 + 0) (by omega) 0]
  have hiq : (i:ℚ) ≤ 1 := by
    have : i ≤ 1 := by omega
    exact_mod_cast this
  have hiq0 : (0:ℚ) ≤ (i:ℚ) := Nat.cast_nonneg i
  rw [abs_le]
  constructor
  · norm_num
    linarith
  · norm_num
    linarith

/-- Witness for C7: at `resolution = 2`, `zoom = 10000`, zero offsets the
generation call succeeds, and every produced code obeys the claimed
formula. -/
theorem claim_C7_witness :
    GenerateScaledWaveforms 2 10000 0 0 = some (xScaledRes2, yScaledRes2) ∧
    ((xScaledRes2.length = (xNormWaveform 2).length ∧
      ∀ i, i < xScaledRes2.length →
        xScaledRes2.getD i 0 = specDACCode ((xNormWaveform 2).getD i 0) 10000
          (offsetTerm 0 10000) ∧
        0 ≤ xScaledRes2.getD i 0 ∧ xScaledRes2.getD i 0 ≤ 65535) ∧
     (yScaledRes2.length = (yNormWaveform 2).length ∧
      ∀ j, j < yScaledRes2.length →
        yScaledRes2.getD j 0 = specDACCode ((yNormWaveform 2).getD j 0) 10000
          (offsetTerm 0 10000) ∧
        0 ≤ yScaledRes2.getD j 0 ∧ yScaledRes2.getD j 0 ≤ 65535)) := by
  obtain ⟨xsw, hxsw⟩ := mapDAC_isSome_of_ok 10000
    (GenerateGalvoWaveform 2 X_RETRACE_LEN X_UNDERSHOOT (-0.5 + 0) (0.5 + 0))
    fun p hp => VoltsToDACUnits_small p (xWaveform_res2_bounded p hp)
  obtain ⟨ysw, hysw⟩ := mapDAC_isSome_of_ok 10000
    (GenerateGalvoWaveform 2 0 0 (-0.5 + 0) (0.5 + 0))
    fun p hp => VoltsToDACUnits_small p (yWaveform_res2_bounded p hp)
  have hsome : GenerateScaledWaveforms 2 10000 0 0 = some (xsw, ysw) := by
    simp only [GenerateScaledWaveforms, hxsw, hysw]
  have hx : xScaledRes2 = xsw := by
    unfold xScaledRes2
    rw [hsome]
    rfl
  have hy : yScaledRes2 = ysw := by
    unfold yScaledRes2
    rw [hsome]
    rfl
  have hsome2 : GenerateScaledWaveforms 2 10000 0 0 = some (xScaledRes2, yScaledRes2) := by
    rw [hx, hy]
    exact hsome
  exact ⟨hsome2, claim_C7_dac_code_formula 2 10000 0 0 xScaledRes2 yScaledRes2 hsome2⟩

/-! ### Hermite cubic facts for the retrace spline -/

theorem hermite_value_zero (n : ℕ) (yF yL sF sL : ℚ) :
    cubic (splineC0 n yF yL sF sL) (splineC1 n yF yL sF sL) sF yF 0 = yF := by
  unfold cubic
  ring

theorem hermite_deriv_zero (n : ℕ) (yF yL sF sL : ℚ) :
    cubicDeriv (splineC0 n yF yL sF sL) (splineC1 n yF yL sF sL) sF 0 = sF := by
  unfold cubicDeriv
  ring

theorem hermite_value_n (n : ℕ) (hn : 1 ≤ n) (yF yL sF sL : ℚ) :
    cubic (splineC0 n yF yL sF sL) (splineC1 n yF yL sF sL) sF yF n = yL := by
  have hn' : (n : ℚ) ≠ 0 := Nat.cast_ne_zero.mpr (by omega)
  unfold cubic splineC0 splineC1
  field_simp
  ring

theorem hermite_deriv_n (n : ℕ) (hn : 1 ≤ n) (yF yL sF sL : ℚ) :
    cubicDeriv (splineC0 n yF yL sF sL) (splineC1 n yF yL sF sL) sF n = sL := by
  have hn' : (n : ℚ) ≠ 0 := Nat.cast_ne_zero.mpr (by omega)
  unfold cubicDeriv splineC0 splineC1
  field_simp
  ring

/-- The four Hermite conditions at `x = 0` and `x = n` determine the four
cubic coefficients uniquely; they force exactly the coefficients computed by
`SplineInterpolate`. -/
theorem hermite_unique (n : ℕ) (hn : 1 ≤ n) (yF yL sF sL q0 q1 q2 q3 : ℚ)
    (h0 : cubic q0 q1 q2 q3 0 = yF) (h1 : cubicDeriv q0 q1 q2 0 = sF)
    (h2 : cubic q0 q1 q2 q3 n = yL) (h3 : cubicDeriv q0 q1 q2 n = sL) :
    q0 = splineC0 n yF yL sF sL ∧ q1 = splineC1 n yF yL sF sL ∧ q2 = sF ∧ q3 = yF := by
  have hn' : (n : ℚ) ≠ 0 := Nat.cast_ne_zero.mpr (by omega)
  have hq3 : q3 = yF := by simpa [cubic] using h0
  have hq2 : q2 = sF := by simpa [cubicDeriv] using h1
  subst hq3
  subst hq2
  unfold cubic at h2
  unfold cubicDeriv at h3
  have e1 : q0 * (n:ℚ)^3 = sL*(n:ℚ) + q2*(n:ℚ) + 2*q3 - 2*yL := by
    linear_combination (n : ℚ) * h3 - 2 * h2
  have e2 : q1 * (n:ℚ)^2 = 3*yL - sL*(n:ℚ) - 2*q2*(n:ℚ) - 3*q3 := by
    linear_combination 3 * h2 - (n : ℚ) * h3
  refine ⟨?_, ?_, rfl, rfl⟩
  · have hq0 : q0 = (sL*(n:ℚ) + q2*(n:ℚ) + 2*q3 - 2*yL) / (n:ℚ)^3 :=
      (eq_div_iff (pow_ne_zero 3 hn')).mpr e1
    rw [hq0]
    unfold splineC0
    field_simp
    ring
  · have hq1 : q1 = (3*yL - sL*(n:ℚ) - 2*q2*(n:ℚ) - 3*q3) / (n:ℚ)^2 :=
      (eq_div_iff (pow_ne_zero 2 hn')).mpr e2
    rw [hq1]
    unfold splineC1
    field_simp
    ring

/-- The samples of `retraceSegment` are exactly the retrace samples of the
generated X waveform. -/
theorem retraceSegment_eq_generated (resolution : ℕ) (ox : ℚ) (j : ℕ) :
    (GenerateGalvoWaveform resolution X_RETRACE_LEN X_UNDERSHOOT
        (-0.5 + ox) (0.5 + ox)).getD (X_UNDERSHOOT + resolution + j) 0 =
      (retraceSegment resolution ox).getD j 0 := by
  rw [GenerateGalvoWaveform_getD_retrace resolution X_RETRACE_LEN X_UNDERSHOOT
    (-0.5 + ox) (0.5 + ox) (by norm_num [X_RETRACE_LEN]) 0]
  have h1 : (0.5 + ox) - (-0.5 + ox) = 1 := by ring
  rw [h1]
  unfold retraceSegment
  have h2 : (-0.5 + ox) - (X_UNDERSHOOT : ℚ) * ((1:ℚ) / ((resolution : ℚ) - 1)) =
      (-0.5 + ox) - 50 * (1 / ((resolution : ℚ) - 1)) := by
    norm_num [X_UNDERSHOOT]
  rw [h2]

/-- First sample of the retrace segment: exactly `scanEnd`. -/
theorem retrace_first_sample (resolution : ℕ) (ox : ℚ) :
    (retraceSegment resolution ox).getD 0 0 = 0.5 + ox := by
  unfold retraceSegment
  rw [SplineInterpolate_getD _ _ _ _ _ (by norm_num [X_RETRACE_LEN]) 0]
  unfold cubic
  push_cast
  ring

/-- Exact deviation of the last retrace sample from `undershootStart`, as a
linear function of the ramp step `s`.  (The cubic itself reaches
`undershootStart` exactly at `x = 438`, one sample position later.) -/
theorem retrace_last_sample_identity (ox s : ℚ) :
    (SplineInterpolate X_RETRACE_LEN (0.5 + ox) ((-0.5 + ox) - 50 * s) s s).getD 437 0 -
        ((-0.5 + ox) - 50 * s) =
      164/10503459 - (10423427/10503459) * s := by
  rw [SplineInterpolate_getD _ _ _ _ _ (by norm_num [X_RETRACE_LEN]) 0]
  unfold cubic splineC0 splineC1 X_RETRACE_LEN
  push_cast
  ring

/-- Exact deviation of the first discrete difference of the retrace segment
from the ramp step `s`. -/
theorem retrace_first_diff_identity (ox s : ℚ) :
    ((SplineInterpolate X_RETRACE_LEN (0.5 + ox) ((-0.5 + ox) - 50 * s) s s).getD 1 0 -
        (SplineInterpolate X_RETRACE_LEN (0.5 + ox) ((-0.5 + ox) - 50 * s) s s).getD 0 0) - s =
      -164/10503459 - (80032/10503459) * s := by
  rw [SplineInterpolate_getD _ _ _ _ _ (by norm_num [X_RETRACE_LEN]) 0,
    SplineInterpolate_getD _ _ _ _ _ (by norm_num [X_RETRACE_LEN]) 0]
  unfold cubic splineC0 splineC1 X_RETRACE_LEN
  push_cast
  ring

/-- Exact deviation of the last discrete difference of the retrace segment
from the ramp step `s`. -/
theorem retrace_last_diff_identity (ox s : ℚ) :
    ((SplineInterpolate X_RETRACE_LEN (0.5 + ox) ((-0.5 + ox) - 50 * s) s s).getD 437 0 -
        (SplineInterpolate X_RETRACE_LEN (0.5 + ox) ((-0.5 + ox) - 50 * s) s s).getD 436 0) - s =
      -491/10503459 - (239608/10503459) * s := by
  rw [SplineInterpolate_getD _ _ _ _ _ (by norm_num [X_RETRACE_LEN]) 0,
    SplineInterpolate_getD _ _ _ _ _ (by norm_num [X_RETRACE_LEN]) 0]
  unfold cubic splineC0 splineC1 X_RETRACE_LEN
  push_cast
  ring

/-! ### Claim C2 -/

/-- C2: for every `n ≥ 1` and endpoint data, `SplineInterpolate` fills
`result[x]`, `x = 0 .. n-1`, with the values of the unique cubic
`c0·x³+c1·x²+c2·x+c3` whose value and first derivative at the segment's two
endpoints (`x = 0` and `x = n`) equal `(yFirst, slopeFirst)` and
`(yLast, slopeLast)`.  For the generated retrace segment (endpoints
`scanEnd` and `undershootStart`, both slopes the ramp step
`s = 1/(resolution-1)`): the first sample equals `scanEnd` exactly; the last
sample equals `undershootStart` to within one ramp step plus `1/60000` (the
cubic reaches `undershootStart` exactly one sample position later, at
`x = 438`); and the discrete first-differences at both ends equal the shared
ramp slope to within `s/100 + 1/60000` and `s/40 + 1/20000` respectively. -/
theorem claim_C2_spline_interpolation (n : ℕ) (yF yL sF sL : ℚ) (hn : 1 ≤ n)
    (resolution : ℕ) (ox : ℚ) (hres : 2 ≤ resolution) :
    ((SplineInterpolate n yF yL sF sL).length = n ∧
     (∀ x, x < n → (SplineInterpolate n yF yL sF sL).getD x 0 =
        cubic (splineC0 n yF yL sF sL) (splineC1 n yF yL sF sL) sF yF x)) ∧
    (cubic (splineC0 n yF yL sF sL) (splineC1 n yF yL sF sL) sF yF 0 = yF ∧
     cubicDeriv (splineC0 n yF yL sF sL) (splineC1 n yF yL sF sL) sF 0 = sF ∧
     cubic (splineC0 n yF yL sF sL) (splineC1 n yF yL sF sL) sF yF n = yL ∧
     cubicDeriv (splineC0 n yF yL sF sL) (splineC1 n yF yL sF sL) sF n = sL) ∧
    (∀ q0 q1 q2 q3 : ℚ,
      cubic q0 q1 q2 q3 0 = yF → cubicDeriv q0 q1 q2 0 = sF →
      cubic q0 q1 q2 q3 n = yL → cubicDeriv q0 q1 q2 n = sL →
      q0 = splineC0 n yF yL sF sL ∧ q1 = splineC1 n yF yL sF sL ∧ q2 = sF ∧ q3 = yF) ∧
    ((retraceSegment resolution ox).getD 0 0 = 0.5 + ox ∧
     |(retraceSegment resolution ox).getD 437 0 -
        ((-0.5 + ox) - 50 * (1 / ((resolution : ℚ) - 1)))| ≤
       1 / ((resolution : ℚ) - 1) + 1/60000 ∧
     |((retraceSegment resolution ox).getD 1 0 - (retraceSegment resolution ox).getD 0 0) -
        1 / ((resolution : ℚ) - 1)| ≤
       (1 / ((resolution : ℚ) - 1)) / 100 + 1/60000 ∧
     |((retraceSegment resolution ox).getD 437 0 - (retraceSegment resolution ox).getD 436 0) -
        1 / ((resolution : ℚ) - 1)| ≤
       (1 / ((resolution : ℚ) - 1)) / 40 + 1/20000) := by
  have hd : (1 : ℚ) ≤ (resolution : ℚ) - 1 := by
    have : (2 : ℚ) ≤ (resolution : ℚ) := by exact_mod_cast hres
    linarith
  have hs0 : 0 < 1 / ((resolution : ℚ) - 1) := by positivity
  have hs1 : 1 / ((resolution : ℚ) - 1) ≤ 1 := by
    rw [div_le_one (by linarith)]
    exact hd
  refine ⟨⟨SplineInterpolate_length n yF yL sF sL,
      fun x hx => SplineInterpolate_getD n yF yL sF sL hx 0⟩,
    ⟨hermite_value_zero n yF yL sF sL, hermite_deriv_zero n yF yL sF sL,
      hermite_value_n n hn yF yL sF sL, hermite_deriv_n n hn yF yL sF sL⟩,
    fun q0 q1 q2 q3 h0 h1 h2 h3 => hermite_unique n hn yF yL sF sL q0 q1 q2 q3 h0 h1 h2 h3,
    retrace_first_sample resolution ox, ?_, ?_, ?_⟩
  · rw [show (retraceSegment resolution ox).getD 437 0 -
          ((-0.5 + ox) - 50 * (1 / ((resolution : ℚ) - 1))) =
        164/10503459 - (10423427/10503459) * (1 / ((resolution : ℚ) - 1)) from
      retrace_last_sample_identity ox (1 / ((resolution : ℚ) - 1))]
    rw [abs_le]
    constructor <;> linarith
  · rw [show ((retraceSegment resolution ox).getD 1 0 -
          (retraceSegment resolution ox).getD 0 0) - 1 / ((resolution : ℚ) - 1) =
        -164/10503459 - (80032/10503459) * (1 / ((resolution : ℚ) - 1)) from
      retrace_first_diff_identity ox (1 / ((resolution : ℚ) - 1))]
    rw [abs_le]
    constructor <;> linarith
  · rw [show ((retraceSegment resolution ox).getD 437 0 -
          (retraceSegment resolution ox).getD 436 0) - 1 / ((resolution : ℚ) - 1) =
        -491/10503459 - (239608/10503459) * (1 / ((resolution : ℚ) - 1)) from
      retrace_last_diff_identity ox (1 / ((resolution : ℚ) - 1))]
    rw [abs_le]
    constructor <;> linarith

/-- Witness for C2 at `n = 438`, endpoint data `(2, -3, 1/7, 2/9)`,
`resolution = 512`, `offsetX = 0`. -/
theorem claim_C2_witness :
    (1 ≤ 438 ∧ 2 ≤ 512) ∧
    (((SplineInterpolate 438 2 (-3) (1/7) (2/9)).length = 438 ∧
     (∀ x, x < 438 → (SplineInterpolate 438 2 (-3) (1/7) (2/9)).getD x 0 =
        cubic (splineC0 438 2 (-3) (1/7) (2/9)) (splineC1 438 2 (-3) (1/7) (2/9))
          (1/7) 2 x)) ∧
    (cubic (splineC0 438 2 (-3) (1/7) (2/9)) (splineC1 438 2 (-3) (1/7) (2/9)) (1/7) 2 0 = 2 ∧
     cubicDeriv (splineC0 438 2 (-3) (1/7) (2/9)) (splineC1 438 2 (-3) (1/7) (2/9)) (1/7) 0 =
       1/7 ∧
     cubic (splineC0 438 2 (-3) (1/7) (2/9)) (splineC1 438 2 (-3) (1/7) (2/9)) (1/7) 2
       (438:ℕ) = -3 ∧
     cubicDeriv (splineC0 438 2 (-3) (1/7) (2/9)) (splineC1 438 2 (-3) (1/7) (2/9)) (1/7)
       (438:ℕ) = 2/9) ∧
    (∀ q0 q1 q2 q3 : ℚ,
      cubic q0 q1 q2 q3 0 = 2 → cubicDeriv q0 q1 q2 0 = 1/7 →
      cubic q0 q1 q2 q3 (438:ℕ) = -3 → cubicDeriv q0 q1 q2 (438:ℕ) = 2/9 →
      q0 = splineC0 438 2 (-3) (1/7) (2/9) ∧ q1 = splineC1 438 2 (-3) (1/7) (2/9) ∧
        q2 = 1/7 ∧ q3 = 2) ∧
    ((retraceSegment 512 0).getD 0 0 = 0.5 + 0 ∧
     |(retraceSegment 512 0).getD 437 0 - ((-0.5 + 0) - 50 * (1 / ((512 : ℚ) - 1)))| ≤
       1 / ((512 : ℚ) - 1) + 1/60000 ∧
     |((retraceSegment 512 0).getD 1 0 - (retraceSegment 512 0).getD 0 0) -
        1 / ((512 : ℚ) - 1)| ≤ (1 / ((512 : ℚ) - 1)) / 100 + 1/60000 ∧
     |((retraceSegment 512 0).getD 437 0 - (retraceSegment 512 0).getD 436 0) -
        1 / ((512 : ℚ) - 1)| ≤ (1 / ((512 : ℚ) - 1)) / 40 + 1/20000)) :=
  ⟨⟨by norm_num, by norm_num⟩,
    claim_C2_spline_interpolation 438 2 (-3) (1/7) (2/9) (by norm_num) 512 0 (by norm_num)⟩

/-! ### Claim C8 -/

/-- C8: for `resolution ≥ 2`, the physical Y waveform is a linear ramp of
exactly `resolution` samples with constant step `1/(resolution-1)` from
`-0.5 + offsetY` to `0.5 + offsetY`; the X waveform is the same ramp (shifted
by `offsetX`) preceded by `X_UNDERSHOOT = 50` undershoot samples continuing
the ramp backward from `scanStart` with the same constant step (so the sample
at index `X_UNDERSHOOT` equals `scanStart`), followed by the
`X_RETRACE_LEN = 438`-sample spline retrace segment. -/
theorem claim_C8_waveform_shape (resolution : ℕ) (ox oy : ℚ) (hres : 2 ≤ resolution) :
    (GenerateGalvoWaveform resolution 0 0 (-0.5 + oy) (0.5 + oy)).length = resolution ∧
    (∀ i, i < resolution →
      (GenerateGalvoWaveform resolution 0 0 (-0.5 + oy) (0.5 + oy)).getD i 0 =
        (-0.5 + oy) + (i : ℚ) * (1 / ((resolution : ℚ) - 1))) ∧
    (GenerateGalvoWaveform resolution 0 0 (-0.5 + oy) (0.5 + oy)).getD 0 0 = -0.5 + oy ∧
    (GenerateGalvoWaveform resolution 0 0 (-0.5 + oy) (0.5 + oy)).getD (resolution - 1) 0 =
      0.5 + oy ∧
    (∀ i, i + 1 < resolution →
      (GenerateGalvoWaveform resolution 0 0 (-0.5 + oy) (0.5 + oy)).getD (i+1) 0 -
        (GenerateGalvoWaveform resolution 0 0 (-0.5 + oy) (0.5 + oy)).getD i 0 =
        1 / ((resolution : ℚ) - 1)) ∧
    (GenerateGalvoWaveform resolution X_RETRACE_LEN X_UNDERSHOOT
        (-0.5 + ox) (0.5 + ox)).length = X_UNDERSHOOT + resolution + X_RETRACE_LEN ∧
    (∀ i, i < X_UNDERSHOOT + resolution →
      (GenerateGalvoWaveform resolution X_RETRACE_LEN X_UNDERSHOOT
          (-0.5 + ox) (0.5 + ox)).getD i 0 =
        (-0.5 + ox) + ((i : ℚ) - (X_UNDERSHOOT : ℚ)) * (1 / ((resolution : ℚ) - 1))) ∧
    (GenerateGalvoWaveform resolution X_RETRACE_LEN X_UNDERSHOOT
        (-0.5 + ox) (0.5 + ox)).getD X_UNDERSHOOT 0 = -0.5 + ox ∧
    (∀ i, i + 1 < X_UNDERSHOOT + resolution →
      (GenerateGalvoWaveform resolution X_RETRACE_LEN X_UNDERSHOOT
          (-0.5 + ox) (0.5 + ox)).getD (i+1) 0 -
        (GenerateGalvoWaveform resolution X_RETRACE_LEN X_UNDERSHOOT
          (-0.5 + ox) (0.5 + ox)).getD i 0 = 1 / ((resolution : ℚ) - 1)) ∧
    (∀ j, j < X_RETRACE_LEN →
      (GenerateGalvoWaveform resolution X_RETRACE_LEN X_UNDERSHOOT
          (-0.5 + ox) (0.5 + ox)).getD (X_UNDERSHOOT + resolution + j) 0 =
        (SplineInterpolate X_RETRACE_LEN (0.5 + ox)
          ((-0.5 + ox) - (X_UNDERSHOOT : ℚ) * (1 / ((resolution : ℚ) - 1)))
          (1 / ((resolution : ℚ) - 1)) (1 / ((resolution : ℚ) - 1))).getD j 0) := by
  have hcast : ((resolution : ℚ) - 1) ≠ 0 := by
    have : (2 : ℚ) ≤ (resolution : ℚ) := by exact_mod_cast hres
    intro hc
    nlinarith
  have hyi : ∀ i, i < resolution →
      (GenerateGalvoWaveform resolution 0 0 (-0.5 + oy) (0.5 + oy)).getD i 0 =
        (-0.5 + oy) + (i : ℚ) * (1 / ((resolution : ℚ) - 1)) := by
    intro i hi
    rw [GenerateGalvoWaveform_getD_linear resolution 0 0 (-0.5 + oy) (0.5 + oy)
      (by omega) 0]
    push_cast
    ring
  have hxi : ∀ i, i < X_UNDERSHOOT + resolution →
      (GenerateGalvoWaveform resolution X_RETRACE_LEN X_UNDERSHOOT
          (-0.5 + ox) (0.5 + ox)).getD i 0 =
        (-0.5 + ox) + ((i : ℚ) - (X_UNDERSHOOT : ℚ)) * (1 / ((resolution : ℚ) - 1)) := by
    intro i hi
    rw [GenerateGalvoWaveform_getD_linear resolution X_RETRACE_LEN X_UNDERSHOOT
      (-0.5 + ox) (0.5 + ox) hi 0]
    push_cast [X_UNDERSHOOT]
    ring
  refine ⟨?_, hyi, ?_, ?_, ?_, ?_, hxi, ?_, ?_, ?_⟩
  · rw [GenerateGalvoWaveform_length]
    omega
  · rw [hyi 0 (by omega)]
    push_cast
    ring
  · rw [hyi (resolution - 1) (by omega)]
    have h1 : ((resolution - 1 : ℕ) : ℚ) = (resolution : ℚ) - 1 := by
      push_cast [Nat.cast_sub (by omega : 1 ≤ resolution)]
      ring
    rw [h1, mul_one_div, div_self hcast]
    ring
  · intro i hi
    rw [hyi (i+1) (by omega), hyi i (by omega)]
    push_cast
    ring
  · rw [GenerateGalvoWaveform_length]
  · rw [hxi X_UNDERSHOOT (by omega)]
    ring
  · intro i hi
    rw [hxi (i+1) (by omega), hxi i (by omega)]
    push_cast
    ring
  · intro j hj
    rw [GenerateGalvoWaveform_getD_retrace resolution X_RETRACE_LEN X_UNDERSHOOT
      (-0.5 + ox) (0.5 + ox) (by norm_num [X_RETRACE_LEN]) 0]
    have h1 : (0.5 + ox) - (-0.5 + ox) = 1 := by ring
    rw [h1]

/-- Witness for C8 at `resolution = 512`, `offsetX = 1/3`, `offsetY = -1/5`. -/
theorem claim_C8_witness :
    2 ≤ 512 ∧
    ((GenerateGalvoWaveform 512 0 0 (-0.5 + (-1/5)) (0.5 + (-1/5))).length = 512 ∧
    (∀ i, i < 512 →
      (GenerateGalvoWaveform 512 0 0 (-0.5 + (-1/5)) (0.5 + (-1/5))).getD i 0 =
        (-0.5 + (-1/5)) + (i : ℚ) * (1 / ((512 : ℚ) - 1))) ∧
    (GenerateGalvoWaveform 512 0 0 (-0.5 + (-1/5)) (0.5 + (-1/5))).getD 0 0 =
      -0.5 + (-1/5) ∧
    (GenerateGalvoWaveform 512 0 0 (-0.5 + (-1/5)) (0.5 + (-1/5))).getD (512 - 1) 0 =
      0.5 + (-1/5) ∧
    (∀ i, i + 1 < 512 →
      (GenerateGalvoWaveform 512 0 0 (-0.5 + (-1/5)) (0.5 + (-1/5))).getD (i+1) 0 -
        (GenerateGalvoWaveform 512 0 0 (-0.5 + (-1/5)) (0.5 + (-1/5))).getD i 0 =
        1 / ((512 : ℚ) - 1)) ∧
    (GenerateGalvoWaveform 512 X_RETRACE_LEN X_UNDERSHOOT
        (-0.5 + 1/3) (0.5 + 1/3)).length = X_UNDERSHOOT + 512 + X_RETRACE_LEN ∧
    (∀ i, i < X_UNDERSHOOT + 512 →
      (GenerateGalvoWaveform 512 X_RETRACE_LEN X_UNDERSHOOT
          (-0.5 + 1/3) (0.5 + 1/3)).getD i 0 =
        (-0.5 + 1/3) + ((i : ℚ) - (X_UNDERSHOOT : ℚ)) * (1 / ((512 : ℚ) - 1))) ∧
    (GenerateGalvoWaveform 512 X_RETRACE_LEN X_UNDERSHOOT
        (-0.5 + 1/3) (0.5 + 1/3)).getD X_UNDERSHOOT 0 = -0.5 + 1/3 ∧
    (∀ i, i + 1 < X_UNDERSHOOT + 512 →
      (GenerateGalvoWaveform 512 X_RETRACE_LEN X_UNDERSHOOT
          (-0.5 + 1/3) (0.5 + 1/3)).getD (i+1) 0 -
        (GenerateGalvoWaveform 512 X_RETRACE_LEN X_UNDERSHOOT
          (-0.5 + 1/3) (0.5 + 1/3)).getD i 0 = 1 / ((512 : ℚ) - 1)) ∧
    (∀ j, j < X_RETRACE_LEN →
      (GenerateGalvoWaveform 512 X_RETRACE_LEN X_UNDERSHOOT
          (-0.5 + 1/3) (0.5 + 1/3)).getD (X_UNDERSHOOT + 512 + j) 0 =
        (SplineInterpolate X_RETRACE_LEN (0.5 + 1/3)
          ((-0.5 + 1/3) - (X_UNDERSHOOT : ℚ) * (1 / ((512 : ℚ) - 1)))
          (1 / ((512 : ℚ) - 1)) (1 / ((512 : ℚ) - 1))).getD j 0)) :=
  ⟨by norm_num, claim_C8_waveform_shape 512 (1/3) (-1/5) (by norm_num)⟩

/-! ### Claim C3 -/

/-- C3: within one Kalman group, the per-frame gain written to the hardware
before each frame is `1.0` for the group's first frame (index 0) and
`1/(i+2)` for the `i`-th subsequent frame — the schedule that makes the
hardware running average equal the unweighted mean of the frames seen so
far; for a group of `K = 5` frames the gain sequence is exactly
`1, 1/2, 1/3, 1/4, 1/5`.  (Gain schedule modelled from the spec; the
implementation of `SetKalmanGain`/`AcquireFrame` is not under `src/`.) -/
theorem claim_C3_kalman_gain_schedule :
    kalmanGainSchedule 5 = [1, 1/2, 1/3, 1/4, 1/5] ∧
    kalmanGain 0 = 1 ∧
    (∀ i : ℕ, kalmanGain (i + 1) = 1 / ((i : ℚ) + 2)) ∧
    (∀ (f : ℕ → ℚ) (m : ℕ), 0 < m →
      kalmanRunningAverage f m = (∑ j ∈ Finset.range m, f j) / m) := by
  refine ⟨?_, rfl, ?_, ?_⟩
  · rw [kalmanGainSchedule, show List.range 5 = [0, 1, 2, 3, 4] from rfl]
    simp only [List.map_cons, List.map_nil, kalmanGain]
    norm_num
  · intro i
    unfold kalmanGain
    rw [if_neg (by omega : ¬ i + 1 = 0)]
    push_cast
    ring_nf
  · intro f m hm
    induction m with
    | zero => omega
    | succ k ih =>
      rcases Nat.eq_zero_or_pos k with h0 | hk
      · subst h0
        show kalmanBlend (kalmanRunningAverage f 0) (f 0) (kalmanGain 0) = _
        unfold kalmanRunningAverage kalmanBlend kalmanGain
        norm_num
      · show kalmanBlend (kalmanRunningAverage f k) (f k) (kalmanGain k) = _
        rw [ih hk, Finset.sum_range_succ]
        unfold kalmanBlend kalmanGain
        rw [if_neg (by omega : ¬ k = 0)]
        have hkq : ((k : ℚ)) ≠ 0 := Nat.cast_ne_zero.mpr (by omega)
        have hk1 : ((k : ℚ) + 1) ≠ 0 := by positivity
        push_cast
        field_simp
        ring

/-- Witness for C3's running-average property at a concrete frame stream. -/
theorem claim_C3_witness :
    (0 < 3) ∧
    kalmanRunningAverage (fun j => (j : ℚ) + 1) 3 =
      (∑ j ∈ Finset.range 3, ((j : ℚ) + 1)) / 3 :=
  ⟨by norm_num,
    claim_C3_kalman_gain_schedule.2.2.2 (fun j => (j : ℚ) + 1) 3 (by norm_num)⟩

/-! ### Claim C4 -/

/-- C4: `StartSequenceAcquisition(count, intervalMs, stopOnOverflow)`
returns the distinct busy code `DEVICE_CAMERA_BUSY_ACQUIRING` — and leaves
the device state untouched, creating and starting no acquisition — whenever
an acquisition is already running; and whenever `count < 1` it returns
`DEVICE_OK` without creating or starting any acquisition. -/
theorem claim_C4_start_sequence_busy (s : CameraState) (count : ℤ) (soF : Bool) :
    (s.isCapturing = true →
      StartSequenceAcquisition s count soF = (MMStatus.cameraBusyAcquiring, s)) ∧
    (s.isCapturing = false → count < 1 →
      StartSequenceAcquisition s count soF = (MMStatus.ok, s)) ∧
    MMStatus.cameraBusyAcquiring ≠ MMStatus.ok ∧
    MMStatus.cameraBusyAcquiring ≠ MMStatus.err := by
  refine ⟨?_, ?_, by decide, by decide⟩
  · intro h
    unfold StartSequenceAcquisition
    rw [h]
    simp
  · intro h hc
    unfold StartSequenceAcquisition
    rw [h]
    simp [hc]

/-- Witness for C4: a busy device rejects the call unchanged; an idle device
treats `count = 0` as a no-op success. -/
theorem claim_C4_witness :
    StartSequenceAcquisition ⟨true, none, false⟩ 5 true =
      (MMStatus.cameraBusyAcquiring, ⟨true, none, false⟩) ∧
    StartSequenceAcquisition ⟨false, none, false⟩ 0 true =
      (MMStatus.ok, ⟨false, none, false⟩) ∧
    MMStatus.cameraBusyAcquiring ≠ MMStatus.ok :=
  ⟨(claim_C4_start_sequence_busy ⟨true, none, false⟩ 5 true).1 rfl,
   (claim_C4_start_sequence_busy ⟨false, none, false⟩ 0 true).2.1 rfl (by norm_num),
   (claim_C4_start_sequence_busy ⟨true, none, false⟩ 5 true).2.2.1⟩

/-! ### Claim C5 -/

/-- C5 (code bug in the `part_001` variant): in `OpenScan.cpp`,
`SendSequenceImage` behaves as claimed — a successful first insertion
returns `true` (one insertion, no buffer clear); on sink-reported overflow
with stop-on-overflow unset the buffer is cleared and the insertion retried
exactly once, returning `true` exactly when the retry succeeds; with
stop-on-overflow set an overflow returns `false`.  In the older variant
(`src/unnamed/part_001`) the non-overflow branch is `else { return false; }`
with the trailing `return true;` unreachable, so even a successful first
insertion returns `false`, halting the sequence — contradicting the claim
and the current code. -/
theorem claim_C5_sink_overflow_retry :
    (∀ (soF : Bool) (i2 : MMStatus),
      SendSequenceImage soF MMStatus.ok i2 = (true, 1, false)) ∧
    (∀ i2 : MMStatus,
      SendSequenceImage false MMStatus.bufferOverflow i2 =
        (i2 == MMStatus.ok, 2, true)) ∧
    (∀ i2 : MMStatus,
      SendSequenceImage true MMStatus.bufferOverflow i2 = (false, 1, false)) ∧
    SendSequenceImage_part001 false MMStatus.ok MMStatus.ok = (false, 1, false) := by
  refine ⟨?_, ?_, ?_, by decide⟩
  · intro soF i2
    simp [SendSequenceImage]
  · intro i2
    simp [SendSequenceImage]
  · intro i2
    simp [SendSequenceImage]

/-! ### Claim C6 -/

/-- C6 (code bug): `InitializeResolution` combines the per-device
resolution sets with `std::set_union`, although its own comment says the
logic determines "the intersection of resolutions allowed by clock,
scanner, and detector".  With a clock supporting only 256×256 and a
scanner/detector supporting only 512×512 there is no resolution compatible
across the required devices, yet initialization succeeds (no `DEVICE_ERR`),
the Resolution property's allowed values are the union
`{256×256, 512×512}` rather than the empty intersection, and 256×256 —
unsupported by scanner and detector — is chosen as the initial resolution
and set on all three devices. -/
theorem claim_C6_resolution_union_bug :
    InitializeResolution [(256, 256)] [(512, 512)] [(512, 512)] =
      Except.ok ([(256, 256), (512, 512)], (256, 256)) ∧
    compatibleResolutions [(256, 256)] [(512, 512)] [(512, 512)] = [] ∧
    (256, 256) ∉ [((512, 512) : ℕ × ℕ)] := by
  refine ⟨rfl, rfl, by decide⟩

/-! ### Claim C10 -/

theorem getD_set_self {α : Type} (l : List α) {x : ℕ} (hx : x < l.length) (v d : α) :
    (l.set x v).getD x d = v := by
  rw [List.getD_eq_getElem?_getD, List.getElem?_set_self']
  simp [hx]

/-- C10: `GetImageBuffer(chan)` returns the null pointer — never indexing
outside the snapped-image store — whenever `chan` is at or beyond the
channel count or the store size; otherwise it returns exactly the stored
buffer for that channel, in particular the buffer stored by the most recent
`StoreSnapImage` for that channel. -/
theorem claim_C10_get_image_buffer (s : SnapImageState) (chan : ℕ) :
    (s.numberOfChannels ≤ chan ∨ s.snappedImages.length ≤ chan →
      GetImageBuffer s chan = none) ∧
    (chan < s.numberOfChannels → chan < s.snappedImages.length →
      GetImageBuffer s chan = s.snappedImages.getD chan none) ∧
    (∀ pixels : List ℕ, chan < s.numberOfChannels →
      GetImageBuffer (StoreSnapImage s chan pixels) chan = some pixels) := by
  refine ⟨?_, ?_, ?_⟩
  · intro h
    unfold GetImageBuffer
    rw [if_pos h]
  · intro h1 h2
    unfold GetImageBuffer
    rw [if_neg (by push_neg; omega)]
  · intro pixels h1
    have hlen : chan < (if s.snappedImages.length < chan + 1 then
        s.snappedImages ++ List.replicate (chan + 1 - s.snappedImages.length) none
      else s.snappedImages).length := by
      by_cases hc : s.snappedImages.length < chan + 1
      · simp [hc]
        omega
      · simp [hc]
        omega
    simp only [StoreSnapImage, GetImageBuffer]
    rw [if_neg (by
      push_neg
      refine ⟨by omega, ?_⟩
      rw [List.length_set]
      omega)]
    exact getD_set_self _ hlen (some pixels) none

/-- Witness for C10: out-of-range channel yields null; in-range channel
yields the stored buffer; after a store, the stored pixels are returned. -/
theorem claim_C10_witness :
    GetImageBuffer ⟨2, [some [7], none]⟩ 5 = none ∧
    GetImageBuffer ⟨2, [some [7], none]⟩ 0 = some [7] ∧
    GetImageBuffer (StoreSnapImage ⟨2, [some [7], none]⟩ 1 [9]) 1 = some [9] :=
  ⟨(claim_C10_get_image_buffer ⟨2, [some [7], none]⟩ 5).1 (Or.inl (by norm_num)),
   (claim_C10_get_image_buffer ⟨2, [some [7], none]⟩ 0).2.1 (by norm_num) (by norm_num),
   (claim_C10_get_image_buffer ⟨2, [some [7], none]⟩ 1).2.2 [9] (by norm_num)⟩

end OpenScanMM
